import Mathlib

/-!
Verification of the GitHub-statistics aggregation service (Gitstats).

This file gives a shallow embedding of the request pipeline implemented in
`src/app/api/githubuser/[username]/` — the repository snapshot fetcher and its
error classification (`data-featcher.ts`), the contribution-timeline commit
estimator (`commit-counter.ts`), the multi-strategy commit cascade, the retry
wrapper and the HTTP error translator (`route.ts`), the language aggregator
(`data-featcher.ts`), and the authentication/token resolution (`route.ts`,
`graphql.ts`) — and proves the documented behavioural properties about it.

Modelling conventions:
  - JavaScript numbers coming back from the GitHub API (star counts, byte
    sizes, contribution counts, totals) are modelled as `Int`.
  - Asynchronous fallible calls are modelled as `Except` values; a JS `throw`
    is an `Except.error`.
  - JS strings are modelled as `String`; the string algorithms that the
    pipeline relies on (`split(' ')`, `trim()`, `includes`) are re-implemented
    executably over `List Char` with JavaScript semantics.
  - `Array.prototype.sort` with a numeric comparator is modelled as the stable
    `List.mergeSort` with the boolean ordering induced by the comparator.
  - A plain JS object used as a string-keyed map with insertion-order
    iteration (`languageMap` / `Object.values`) is modelled as an association
    list updated in place.
-/

/-- JS `pattern` is a prefix of `s`, over char lists. -/
def charsStartWith : List Char → List Char → Bool
  | [], _ => true
  | _ :: _, [] => false
  | p :: ps, c :: cs => p == c && charsStartWith ps cs

/-- JS `s.includes(pattern)` over char lists: `pattern` occurs contiguously in `s`. -/
def charsContain (pattern : List Char) : List Char → Bool
  | [] => pattern.isEmpty
  | c :: cs => charsStartWith pattern (c :: cs) || charsContain pattern cs

/-- JS `s.includes(pattern)` on strings (used by the error translator in `route.ts`). -/
def includes (s pattern : String) : Bool :=
  charsContain pattern.data s.data

/-- JS `text.split(' ')`: split on single spaces, keeping empty fragments. -/
def splitOnSpaceChar : List Char → List (List Char)
  | [] => [[]]
  | c :: rest =>
    match splitOnSpaceChar rest with
    | [] => [[c]]
    | w :: ws => if c = ' ' then [] :: w :: ws else (c :: w) :: ws

/-- JS truthiness of `s.trim()`: the string contains some non-whitespace character. -/
def jsTrimNonempty (l : List Char) : Bool :=
  l.any (fun c => !c.isWhitespace)

/--
The word-accumulation loop of `wrapTextInLines` (`route.ts` / `utils`):
processes the word list, threading the current line and the emitted lines.
-/
def wrapWords (width indent : Nat) :
    List (List Char) → List Char → List (List Char) → List (List Char) × List Char
  | [], currentLine, lines => (lines, currentLine)
  | word :: words, currentLine, lines =>
    if currentLine.length + word.length + 1 ≤ width then
      wrapWords width indent words
        (currentLine ++ (if jsTrimNonempty currentLine then [' '] else []) ++ word) lines
    else
      wrapWords width indent words (List.replicate indent ' ' ++ word) (lines ++ [currentLine])

/--
`wrapTextInLines(text, width, indent)` from `route.ts` (also exported by the
`utils` module): greedy word wrap; the current line starts as `indent` spaces,
and a trailing line is emitted only if it is not all whitespace.
-/
def wrapTextInLines (text : String) (width indent : Nat) : List String :=
  let words := splitOnSpaceChar text.data
  let result := wrapWords width indent words (List.replicate indent ' ') []
  let lines := if jsTrimNonempty result.2 then result.1 ++ [result.2] else result.1
  lines.map (fun l => String.mk l)

/-- `languages.edges[i].node` from the GraphQL snapshot. -/
structure LanguageNodeData where
  name : String
  color : String
deriving DecidableEq

/-- `languages.edges[i]` from the GraphQL snapshot: byte size plus language node. -/
structure LanguageEdgeData where
  size : Int
  node : LanguageNodeData
deriving DecidableEq

/-- A `{ totalCount }` selection result. -/
structure TotalCountData where
  totalCount : Int
deriving DecidableEq

/-- One repository node of the snapshot query (`types.ts` `RepositoryData`).
`languagesEdges` models `languages.edges`. -/
structure RepositoryData where
  name : String
  isPrivate : Bool
  isFork : Bool
  isArchived : Bool
  stargazers : TotalCountData
  languagesEdges : List LanguageEdgeData
deriving DecidableEq

/-- The `repositories` selection: `totalCount` plus up to 100 nodes. -/
structure RepositoriesData where
  totalCount : Int
  nodes : List RepositoryData
deriving DecidableEq

/-- The user payload of the combined snapshot query (`types.ts` `UserStatsData`).
`createdAtYear` models `new Date(userData.createdAt).getFullYear()`. -/
structure UserStatsData where
  createdAtYear : Nat
  pullRequests : TotalCountData
  openIssues : TotalCountData
  closedIssues : TotalCountData
  repositories : RepositoriesData
deriving DecidableEq

/-- One entry of a GraphQL `errors` array. -/
structure GraphQLErrorEntry where
  message : String
  type : Option String
deriving DecidableEq

/-- The `data` object of a GraphQL response body. -/
structure GraphQLData where
  user : Option UserStatsData
deriving DecidableEq

/-- A GraphQL response body: optional `data`, optional `errors`. -/
structure GraphQLResponse where
  data : Option GraphQLData
  errors : Option (List GraphQLErrorEntry)
deriving DecidableEq

/-- The envelope returned by `makeGraphQLRequest`: parsed body, HTTP status, statusText. -/
structure ApiResponse where
  data : GraphQLResponse
  status : Nat
  statusText : String
deriving DecidableEq

/-- An error value thrown inside the data fetcher: either a `CustomApiError`
(`errors.ts`: message plus mandatory `code` string) or a plain JS `Error`. -/
inductive ApiError where
  | customApiError (message : String) (code : String)
  | jsError (message : String)
deriving DecidableEq

/-- The result of one commit-counting strategy: `{ count, method }`. -/
structure CommitCountResult where
  count : Int
  method : String
deriving DecidableEq

/-- The record returned by `getUserStats` in `data-featcher.ts`. -/
structure UserStatsResult where
  totalCommits : Int
  totalStars : Int
  totalPRs : Int
  totalIssues : Int
  commitMethod : String
  totalRepos : Int
  publicRepos : Nat
  privateRepos : Nat
deriving DecidableEq

/-- The exclusion filter of `getUserStats` (`data-featcher.ts` lines 55-58):
`new Set(excludeRepos)` membership, repositories whose name is in the set are dropped. -/
def filterExcludedSet (nodes : List RepositoryData) (excludeRepos : List String) :
    List RepositoryData :=
  nodes.filter (fun repo => !decide (repo.name ∈ excludeRepos))

/-- `hiddenReposMap` of `getUserTopLanguages`: a string-keyed boolean record
built by setting `hiddenReposMap[repoName] = true` for each excluded name. -/
def hiddenReposMap (excludeRepos : List String) : String → Bool :=
  excludeRepos.foldl (fun m repoName => fun n => if n = repoName then true else m n)
    (fun _ => false)

/-- The exclusion filter of `getUserTopLanguages` (`data-featcher.ts` line 85):
repositories whose name is truthy in `hiddenReposMap` are dropped. -/
def filterExcludedMap (nodes : List RepositoryData) (excludeRepos : List String) :
    List RepositoryData :=
  nodes.filter (fun repo => !(hiddenReposMap excludeRepos repo.name))

/-- `totalStars` of `getUserStats`: reduce `stargazers.totalCount` over the
non-excluded repositories, starting from 0. -/
def totalStars (nodes : List RepositoryData) (excludeRepos : List String) : Int :=
  (filterExcludedSet nodes excludeRepos).foldl
    (fun total current => total + current.stargazers.totalCount) 0

/-- One entry of `languageMap` in `getUserTopLanguages`: `{name, color, size, count}`. -/
structure LanguageMapEntry where
  name : String
  color : String
  size : Int
  count : Nat
deriving DecidableEq

/-- Processing one language edge into `languageMap`: if the language name is
already a key, add the byte size and bump the count; otherwise append a fresh
entry (JS object insertion order). -/
def updateLanguageMap : List LanguageMapEntry → LanguageEdgeData → List LanguageMapEntry
  | [], edge => [⟨edge.node.name, edge.node.color, edge.size, 1⟩]
  | entry :: rest, edge =>
    if entry.name = edge.node.name then
      { entry with size := entry.size + edge.size, count := entry.count + 1 } :: rest
    else
      entry :: updateLanguageMap rest edge

/-- The nested `forEach` aggregation of `getUserTopLanguages`: fold every
language edge of every repository into `languageMap`. -/
def buildLanguageMap (nodes : List RepositoryData) : List LanguageMapEntry :=
  nodes.foldl (fun m repo => repo.languagesEdges.foldl updateLanguageMap m) []

/-- The star comparator `(a, b) => b.stargazers.totalCount - a.stargazers.totalCount`
as a stable boolean ordering (a may stay before b iff the comparator is ≤ 0). -/
def starsDescending (a b : RepositoryData) : Bool :=
  decide (b.stargazers.totalCount ≤ a.stargazers.totalCount)

/-- The size comparator `(a, b) => b.size - a.size` on language map entries. -/
def sizeDescending (a b : LanguageMapEntry) : Bool :=
  decide (b.size ≤ a.size)

/-- `getUserTopLanguages(userData, excludeRepos)` from `data-featcher.ts`:
filter out hidden repositories, sort by stars descending, aggregate language
byte sizes, sort by total bytes descending, take the top 5, prefix with `#`. -/
def getUserTopLanguages (userData : UserStatsData) (excludeRepos : List String) :
    List String :=
  let repositoryNodes :=
    (filterExcludedMap userData.repositories.nodes excludeRepos).mergeSort starsDescending
  let languageMap := buildLanguageMap repositoryNodes
  ((languageMap.mergeSort sizeDescending).take 5).map (fun lang => "#" ++ lang.name)

/-- The concatenation of all language edges of a repository list (aggregation order). -/
def flatEdges (nodes : List RepositoryData) : List LanguageEdgeData :=
  (nodes.map (fun r => r.languagesEdges)).flatten

/-- Total byte size attributed to the language `langName` in an edge list. -/
def aggEdges (edges : List LanguageEdgeData) (langName : String) : Int :=
  ((edges.filter (fun e => e.node.name == langName)).map (fun e => e.size)).sum

/-- Per-language total byte size over a repository list. -/
def aggregatedLanguageSize (nodes : List RepositoryData) (langName : String) : Int :=
  aggEdges (flatEdges nodes) langName

/-- The descending year list of `commit-counter.ts`:
`for (let y = currentYear; y >= createdYear; y--) yearsRange.push(y)`. -/
def yearsRange (currentYear createdYear : Nat) : List Nat :=
  (List.range (currentYear + 1 - createdYear)).map (fun i => currentYear - i)

/-- `estimatedInitialCommits` of `commit-counter.ts`:
`1 + totalReposCount + totalPRs + totalIssues` with `totalIssues = open + closed`. -/
def estimatedInitialCommits (userData : UserStatsData) : Int :=
  1 + userData.repositories.totalCount + userData.pullRequests.totalCount
    + (userData.openIssues.totalCount + userData.closedIssues.totalCount)

/-- The year-summation loop of `commit-counter.ts`:
`if (yearData?.totalCommitContributions) historicalCommits += ...`
(a year contributes only when present and truthy, i.e. non-zero). -/
def historicalCommits (years : List Nat) (contributionsByYear : Nat → Option Int) : Int :=
  years.foldl
    (fun acc year =>
      match contributionsByYear year with
      | some v => if v ≠ 0 then acc + v else acc
      | none => acc)
    0

/-- The method tag of the contribution-timeline strategy (`commit-counter.ts` line 78). -/
def commitMethodTag (isAuthenticated : Bool) (numYears : Nat) (estInitial : Int) : String :=
  "contribution-timeline-" ++ (if isAuthenticated then "authenticated" else "public")
    ++ "-" ++ toString numYears ++ "years+" ++ toString estInitial ++ "initial"

/--
`getAccurateCommitCount` from `commit-counter.ts`. `timelineUser` models
`timelineResponse.data?.data?.user` of the contribution-timeline GraphQL
query: when present it maps a year to the `totalCommitContributions` of that
year's aliased `contributionsCollection` (absent alias = `none`). When the
response has no user, the function throws (`Except.error`) — the catch clause
at lines 84-87 logs and re-throws, so the error escapes the estimator.
-/
def getAccurateCommitCount (currentYear : Nat) (isAuthenticated : Bool)
    (timelineUser : Option (Nat → Option Int)) (userData : UserStatsData) :
    Except ApiError CommitCountResult :=
  let createdYear := userData.createdAtYear
  let years := yearsRange currentYear createdYear
  match timelineUser with
  | some contributionsByYear =>
    let hist := historicalCommits years contributionsByYear
    let est := estimatedInitialCommits userData
    .ok { count := hist + est, method := commitMethodTag isAuthenticated years.length est }
  | none => .error (.jsError "No user data returned from GitHub API")

/--
`getUserStats` from `data-featcher.ts`, after the snapshot GraphQL call has
produced `apiResponse`. Classifies the response errors exactly as lines 26-45
do, then computes stars and calls `getAccurateCommitCount` with no try/catch
around it (line 60), so an estimator error propagates to the caller.
`timelineUser` and `currentYear` parameterize the estimator's own network
response and clock.
-/
def getUserStats (apiResponse : ApiResponse) (timelineUser : Option (Nat → Option Int))
    (currentYear : Nat) (isAuthenticated : Bool) (excludeRepos : List String) :
    Except ApiError UserStatsResult :=
  match apiResponse.data.errors with
  | some [] =>
    -- JS would crash reading `errors[0].type` of an empty array.
    .error (.jsError "Cannot read properties of undefined (reading 'type')")
  | some (e :: _) =>
    if e.type == some "NOT_FOUND" then
      .error (.customApiError
        (if e.message == "" then "Could not fetch user." else e.message) "USER_NOT_FOUND")
    else if !(e.message == "") then
      .error (.customApiError ((wrapTextInLines e.message 90 1).headD "")
        apiResponse.statusText)
    else
      .error (.customApiError
        "Something went wrong while trying to retrieve the stats data using the GraphQL API."
        "GRAPHQL_ERROR")
  | none =>
    match apiResponse.data.data with
    | none => .error (.customApiError "User data not found" "USER_NOT_FOUND")
    | some d =>
      match d.user with
      | none => .error (.customApiError "User data not found" "USER_NOT_FOUND")
      | some userData =>
        match getAccurateCommitCount currentYear isAuthenticated timelineUser userData with
        | .error err => .error err
        | .ok commitsResult =>
          .ok { totalCommits := commitsResult.count
              , totalStars := totalStars userData.repositories.nodes excludeRepos
              , totalPRs := userData.pullRequests.totalCount
              , totalIssues := userData.openIssues.totalCount
                  + userData.closedIssues.totalCount
              , commitMethod := commitsResult.method
              , totalRepos := userData.repositories.totalCount
              , publicRepos :=
                  (userData.repositories.nodes.filter (fun r => !r.isPrivate)).length
              , privateRepos :=
                  (userData.repositories.nodes.filter (fun r => r.isPrivate)).length }

/--
`getTotalCommitsCount` from `route.ts` (lines 394-419), with the behaviour of
the three strategy calls supplied as `Except` values. Returns the cascade's
result together with the list of strategies that were invoked (1 = search API,
2 = multi-year GraphQL, 3 = repository stats). A strategy's result is accepted
when its count is `> 0`; the third strategy's result is returned as-is; a
thrown strategy lands in the catch clause, which returns
`{ count: 0, method: "all-methods-failed" }`.
-/
def getTotalCommitsCount
    (searchResult graphqlResult repositoriesResult : Except String CommitCountResult) :
    CommitCountResult × List Nat :=
  match searchResult with
  | .error _ => ({ count := 0, method := "all-methods-failed" }, [1])
  | .ok r1 =>
    if r1.count > 0 then (r1, [1])
    else
      match graphqlResult with
      | .error _ => ({ count := 0, method := "all-methods-failed" }, [1, 2])
      | .ok r2 =>
        if r2.count > 0 then (r2, [1, 2])
        else
          match repositoriesResult with
          | .error _ => ({ count := 0, method := "all-methods-failed" }, [1, 2, 3])
          | .ok r3 => (r3, [1, 2, 3])

/-- Outcome of the retry wrapper: the wrapped value, the re-thrown operation
error, or the unreachable-in-practice `Max retries exceeded` throw. -/
inductive RetryResult (ε α : Type) where
  | ok (value : α)
  | err (error : ε)
  | maxRetriesExceeded
deriving DecidableEq

/--
The retry loop of `retryApiCall` (`route.ts` lines 185-200), unrolled on the
remaining iteration count `r` with current index `i` (the caller maintains
`i + r = maxRetries`). `fetcherFunction i` is the outcome of the `i`-th
invocation of the wrapped operation. Returns the outcome, the number of
invocations performed, and the list of backoff delays (`1000 * 2 ^ i`
milliseconds) awaited between invocations.
-/
def retryGo (fetcherFunction : Nat → Except ε α) (maxRetries : Nat) :
    Nat → Nat → RetryResult ε α × Nat × List Nat
  | _, 0 => (.maxRetriesExceeded, 0, [])
  | i, r + 1 =>
    match fetcherFunction i with
    | .ok v => (.ok v, 1, [])
    | .error e =>
      if i == maxRetries - 1 then (.err e, 1, [])
      else
        let rest := retryGo fetcherFunction maxRetries (i + 1) r
        (rest.1, rest.2.1 + 1, 1000 * 2 ^ i :: rest.2.2)

/-- `retryApiCall(fetcherFunction, variables, token, maxRetries)` from
`route.ts`: run the loop from attempt 0. -/
def retryApiCall (fetcherFunction : Nat → Except ε α) (maxRetries : Nat := 3) :
    RetryResult ε α × Nat × List Nat :=
  retryGo fetcherFunction maxRetries 0 maxRetries

/-- An error value reaching the `GET` catch clause in `route.ts`: its local
`CustomApiError` (optional `code`) or a plain `Error`. -/
inductive RouteError where
  | customApiError (message : String) (code : Option String)
  | jsError (message : String)
deriving DecidableEq

/-- The JSON error payload plus HTTP status produced by the catch clause. -/
structure ErrorHttpResponse where
  error : String
  suggestion : Option String
  status : Nat
deriving DecidableEq

/--
The error translator of `GET` (`route.ts` lines 735-773): `CustomApiError`
codes are mapped first; otherwise the message is pattern-matched for
`"User not found"` and `"rate limit"`; the suggestion is set only for 429.
-/
def translateError (err : RouteError) : ErrorHttpResponse :=
  match err with
  | .customApiError message code =>
    if code == some "USER_NOT_FOUND" then
      { error := "User not found", suggestion := none, status := 404 }
    else if code == some "GRAPHQL_ERROR" then
      { error := "GraphQL API error", suggestion := none, status := 500 }
    else
      { error := message, suggestion := none, status := 500 }
  | .jsError message =>
    if includes message "User not found" then
      { error := "User not found", suggestion := none, status := 404 }
    else if includes message "rate limit" then
      { error := "Rate limit exceeded. Please try again later or login for higher limits."
      , suggestion := some "Consider logging in with GitHub for higher rate limits"
      , status := 429 }
    else
      { error := message, suggestion := none, status := 500 }

/-- The parsed `github_user` cookie payload (fields used by `GET`). -/
structure AuthenticatedUserData where
  login : String
  access_token : String
deriving DecidableEq

/-- `isUserAuthenticated = authenticatedUserData?.login === username`
(`route.ts` line 677); a missing or unparseable cookie is `none`. -/
def isUserAuthenticated (authenticatedUserData : Option AuthenticatedUserData)
    (username : String) : Bool :=
  match authenticatedUserData with
  | some u => u.login == username
  | none => false

/-- `githubToken = isUserAuthenticated ? authenticatedUserData?.access_token
: process.env.GITHUB_TOKEN` (`route.ts` line 678). -/
def githubToken (authenticatedUserData : Option AuthenticatedUserData)
    (username : String) (envToken : Option String) : Option String :=
  if isUserAuthenticated authenticatedUserData username then
    authenticatedUserData.map (fun u => u.access_token)
  else envToken

/-- The conditional repository filter of `getCompleteUserDataQuery`
(`graphql.ts` line 101): `isAuthenticated ? "" : "privacy: PUBLIC"`. -/
def repositoriesPrivacyArg (isAuthenticated : Bool) : String :=
  if isAuthenticated then "" else "privacy: PUBLIC"

/-- `_metadata.dataScope` (`route.ts` line 729). -/
def dataScope (isAuthenticated : Bool) : String :=
  if isAuthenticated then "public-and-private" else "public-only"

/-! Concrete inputs used by witnesses and counterexamples. -/

/-- A snapshot user: created 2024, 5 PRs, 2 open and 1 closed issues, 3 repositories. -/
def exampleUser : UserStatsData :=
  { createdAtYear := 2024
  , pullRequests := ⟨5⟩
  , openIssues := ⟨2⟩
  , closedIssues := ⟨1⟩
  , repositories :=
    { totalCount := 3
    , nodes :=
      [ { name := "alpha", isPrivate := false, isFork := false, isArchived := false
        , stargazers := ⟨10⟩
        , languagesEdges := [⟨5000, ⟨"Rust", "#dea584"⟩⟩] }
      , { name := "beta", isPrivate := false, isFork := false, isArchived := false
        , stargazers := ⟨20⟩
        , languagesEdges := [⟨300, ⟨"TypeScript", "#3178c6"⟩⟩] }
      , { name := "gamma", isPrivate := false, isFork := false, isArchived := false
        , stargazers := ⟨0⟩
        , languagesEdges := [] } ] } }

/-- A successful snapshot response carrying `exampleUser`. -/
def exampleOkResponse : ApiResponse :=
  { data := { data := some { user := some exampleUser }, errors := none }
  , status := 200
  , statusText := "OK" }

/-- A snapshot response whose GraphQL error entry is not NOT_FOUND and has a
message, arriving with HTTP statusText `"OK"`. -/
def exampleErrorResponse : ApiResponse :=
  { data := { data := none
            , errors := some [{ message := "boom", type := some "RATE_LIMITED" }] }
  , status := 200
  , statusText := "OK" }

/-- A contribution timeline: 20 commit contributions in 2025, 22 in 2024. -/
def exampleTimeline : Nat → Option Int :=
  fun year => if year = 2025 then some 20 else if year = 2024 then some 22 else none

/-- An operation for the retry wrapper: fails on attempt 0, succeeds on attempt 1. -/
def exampleOperation : Nat → Except String Int :=
  fun i => if i = 1 then .ok 7 else .error "network down"

/-- A contribution timeline in which one year's sub-query returned a negative
value (-100 in 2025, 2 in 2024): negative values are truthy in JS, so the
year loop of `commit-counter.ts` adds them unsanitized. -/
def exampleNegativeTimeline : Nat → Option Int :=
  fun year => if year = 2025 then some (-100) else if year = 2024 then some 2 else none

/-! Helper lemmas. -/

/-- A left fold accumulating `g` over a list equals the initial value plus the sum. -/
theorem foldl_add_eq {α : Type} (g : α → Int) :
    ∀ (l : List α) (acc : Int), l.foldl (fun t c => t + g c) acc = acc + (l.map g).sum
  | [], acc => by simp
  | c :: l, acc => by
    simp [foldl_add_eq g l (acc + g c)]
    ring

/--
Claim C9: applying the exclusion filter twice with the same exclusion set
yields the same filtered repository list as applying it once, for both the
set-based filter of `getUserStats` and the record-based filter of
`getUserTopLanguages`.
-/
theorem exclusion_filter_idempotent (nodes : List RepositoryData) (excludeRepos : List String) :
    filterExcludedSet (filterExcludedSet nodes excludeRepos) excludeRepos
        = filterExcludedSet nodes excludeRepos
      ∧ filterExcludedMap (filterExcludedMap nodes excludeRepos) excludeRepos
        = filterExcludedMap nodes excludeRepos := by
  constructor <;> simp [filterExcludedSet, filterExcludedMap, List.filter_filter]

/--
Claim C4: `totalStars` equals the sum of `stargazers.totalCount` over exactly
the repositories whose name is not in the exclusion set, and excluding a name
that matches no repository leaves the result unchanged.
-/
theorem totalStars_spec (nodes : List RepositoryData) (excludeRepos : List String) :
    totalStars nodes excludeRepos
        = ((nodes.filter (fun r => decide (¬ r.name ∈ excludeRepos))).map
            (fun r => r.stargazers.totalCount)).sum
      ∧ ∀ name, (∀ r ∈ nodes, r.name ≠ name) →
          totalStars nodes (name :: excludeRepos) = totalStars nodes excludeRepos := by
  constructor
  · rw [totalStars, foldl_add_eq]
    simp [filterExcludedSet]
  · intro name h
    rw [totalStars, totalStars]
    have hfilter : filterExcludedSet nodes (name :: excludeRepos)
        = filterExcludedSet nodes excludeRepos := by
      apply List.filter_congr
      intro r hr
      simp [List.mem_cons, h r hr]
    rw [hfilter]

/-- Witness for claim C4 at a concrete snapshot: excluding the unmatched name
`"ghost"` does not change the star total, which evaluates to 30. -/
theorem totalStars_spec_witness :
    totalStars exampleUser.repositories.nodes ["ghost"]
        = totalStars exampleUser.repositories.nodes []
      ∧ totalStars exampleUser.repositories.nodes [] = 30 :=
  ⟨(totalStars_spec exampleUser.repositories.nodes []).2 "ghost" (by decide), by decide⟩

/--
Claim C10: the run is authenticated exactly when the parsed `github_user`
cookie's login equals the requested username; in that case the cookie's token
is used, the privacy filter is omitted and the data scope is
public-and-private; in every other case (no cookie, or a cookie for a
different user) the default token is used, the `privacy: PUBLIC` filter is
injected, and the data scope is public-only.
-/
theorem authentication_resolution (cookie : Option AuthenticatedUserData)
    (username : String) (envToken : Option String) :
    (isUserAuthenticated cookie username = true ↔ ∃ u, cookie = some u ∧ u.login = username)
      ∧ (∀ u, cookie = some u → u.login = username →
          githubToken cookie username envToken = some u.access_token
            ∧ repositoriesPrivacyArg (isUserAuthenticated cookie username) = ""
            ∧ dataScope (isUserAuthenticated cookie username) = "public-and-private")
      ∧ (∀ u, cookie = some u → u.login ≠ username →
          isUserAuthenticated cookie username = false)
      ∧ (isUserAuthenticated cookie username = false →
          githubToken cookie username envToken = envToken
            ∧ repositoriesPrivacyArg (isUserAuthenticated cookie username) = "privacy: PUBLIC"
            ∧ dataScope (isUserAuthenticated cookie username) = "public-only") := by
  refine ⟨?_, ?_, ?_, ?_⟩
  · cases cookie <;> simp [isUserAuthenticated]
  · intro u hu hlogin
    subst hu
    simp [isUserAuthenticated, githubToken, repositoriesPrivacyArg, dataScope, hlogin]
  · intro u hu hlogin
    subst hu
    simp [isUserAuthenticated, hlogin]
  · intro hfalse
    simp [githubToken, repositoriesPrivacyArg, dataScope, hfalse]

/-- Witness for claim C10: a valid cookie for the user `"alice"` on a request
for `"bob"` falls back to the default token, the public filter and the
public-only scope. -/
theorem authentication_resolution_witness :
    isUserAuthenticated (some ⟨"alice", "usertok"⟩) "bob" = false
      ∧ githubToken (some ⟨"alice", "usertok"⟩) "bob" (some "envtok") = some "envtok"
      ∧ repositoriesPrivacyArg (isUserAuthenticated (some ⟨"alice", "usertok"⟩) "bob")
          = "privacy: PUBLIC"
      ∧ dataScope (isUserAuthenticated (some ⟨"alice", "usertok"⟩) "bob") = "public-only" := by
  have h := (authentication_resolution (some ⟨"alice", "usertok"⟩) "bob" (some "envtok")).2.2.2
    (by decide)
  exact ⟨by decide, h.1, h.2.1, h.2.2⟩

/--
Counterexample to claim C3 as stated: when every strategy returns a zero
count, the cascade's final result is the third (repository) strategy's result
— its zero-count result is accepted even though the count is not strictly
positive, so acceptance is not "exactly when the count is strictly greater
than zero".
-/
theorem commit_cascade_counterexample :
    getTotalCommitsCount (.ok ⟨0, "search-api"⟩) (.ok ⟨0, "graphql-multi-year-public-only"⟩)
        (.ok ⟨0, "repository-stats-public-only"⟩)
      = (⟨0, "repository-stats-public-only"⟩, [1, 2, 3])
      ∧ ¬ ((getTotalCommitsCount (.ok ⟨0, "search-api"⟩)
            (.ok ⟨0, "graphql-multi-year-public-only"⟩)
            (.ok ⟨0, "repository-stats-public-only"⟩)).1.count > 0) := by
  decide

/--
Claim C3 (amended): a non-final strategy's result is accepted exactly when
its count is strictly positive — if strategy 1 yields a non-positive count,
strategy 2 is attempted, and once a strategy yields a positive count no later
strategy is attempted; the final repository strategy's result, however, is
accepted whatever its count, and a strategy that throws — in whichever
position it is reached — aborts the cascade with count 0 and method
`all-methods-failed` instead of falling through.
-/
theorem commit_cascade_fallthrough (s2 s3 : Except String CommitCountResult)
    (r1 r2 r3 : CommitCountResult) (e : String) :
    (0 < r1.count → getTotalCommitsCount (.ok r1) s2 s3 = (r1, [1]))
      ∧ (r1.count ≤ 0 → 0 < r2.count →
          getTotalCommitsCount (.ok r1) (.ok r2) s3 = (r2, [1, 2]))
      ∧ (r1.count ≤ 0 → r2.count ≤ 0 →
          getTotalCommitsCount (.ok r1) (.ok r2) (.ok r3) = (r3, [1, 2, 3]))
      ∧ (getTotalCommitsCount (.error e) s2 s3 = (⟨0, "all-methods-failed"⟩, [1]))
      ∧ (r1.count ≤ 0 →
          getTotalCommitsCount (.ok r1) (.error e) s3
            = (⟨0, "all-methods-failed"⟩, [1, 2]))
      ∧ (r1.count ≤ 0 → r2.count ≤ 0 →
          getTotalCommitsCount (.ok r1) (.ok r2) (.error e)
            = (⟨0, "all-methods-failed"⟩, [1, 2, 3])) := by
  refine ⟨?_, ?_, ?_, ?_, ?_, ?_⟩
  · intro h1
    simp [getTotalCommitsCount, h1]
  · intro h1 h2
    simp [getTotalCommitsCount, show ¬ r1.count > 0 by omega, h2]
  · intro h1 h2
    simp [getTotalCommitsCount, show ¬ r1.count > 0 by omega, show ¬ r2.count > 0 by omega]
  · simp [getTotalCommitsCount]
  · intro h1
    simp [getTotalCommitsCount, show ¬ r1.count > 0 by omega]
  · intro h1 h2
    simp [getTotalCommitsCount, show ¬ r1.count > 0 by omega, show ¬ r2.count > 0 by omega]

/-- Witness for claim C3: strategy 1 yields zero, so strategy 2 runs; its
positive count is accepted and strategy 3 is never attempted. -/
theorem commit_cascade_fallthrough_witness :
    getTotalCommitsCount (.ok ⟨0, "search-api"⟩) (.ok ⟨9, "graphql-multi-year-public-only"⟩)
        (.ok ⟨4, "repository-stats-public-only"⟩)
      = (⟨9, "graphql-multi-year-public-only"⟩, [1, 2]) :=
  (commit_cascade_fallthrough (.ok ⟨9, "graphql-multi-year-public-only"⟩)
      (.ok ⟨4, "repository-stats-public-only"⟩) ⟨0, "search-api"⟩
      ⟨9, "graphql-multi-year-public-only"⟩ ⟨4, "repository-stats-public-only"⟩ "x").2.1
    (by decide) (by decide)

/--
Counterexample to claim C7 as stated: a `CustomApiError` whose code is
neither `USER_NOT_FOUND` nor `GRAPHQL_ERROR` (here the HTTP statusText
`"OK"`, as thrown by `getUserStats` for a GraphQL error payload) but whose
message contains `"rate limit"` is translated to HTTP 500 with the raw
message, not to the HTTP 429 the claim requires for such errors.
-/
theorem error_translation_counterexample :
    translateError (.customApiError "API rate limit exceeded for ID 123." (some "OK"))
        = { error := "API rate limit exceeded for ID 123.", suggestion := none, status := 500 }
      ∧ includes "API rate limit exceeded for ID 123." "rate limit" = true
      ∧ (translateError
          (.customApiError "API rate limit exceeded for ID 123." (some "OK"))).status ≠ 429 := by
  decide

/--
Claim C7 (amended): the handler maps a `CustomApiError` coded
`USER_NOT_FOUND` to 404, one coded `GRAPHQL_ERROR` to 500 with the fixed
message, and one with any other code to 500 with its raw message (even when
that message mentions rate limits); a plain error is mapped to 404 when its
message contains `"User not found"`, to 429 with an authentication suggestion
when it contains `"rate limit"`, and to 500 with the raw message otherwise.
-/
theorem error_translation_spec (message : String) (code : Option String) :
    (translateError (.customApiError message (some "USER_NOT_FOUND"))
        = ⟨"User not found", none, 404⟩)
      ∧ (translateError (.customApiError message (some "GRAPHQL_ERROR"))
          = ⟨"GraphQL API error", none, 500⟩)
      ∧ (code ≠ some "USER_NOT_FOUND" → code ≠ some "GRAPHQL_ERROR" →
          translateError (.customApiError message code) = ⟨message, none, 500⟩)
      ∧ (includes message "User not found" = true →
          translateError (.jsError message) = ⟨"User not found", none, 404⟩)
      ∧ (includes message "User not found" = false → includes message "rate limit" = true →
          translateError (.jsError message)
            = ⟨"Rate limit exceeded. Please try again later or login for higher limits."
              , some "Consider logging in with GitHub for higher rate limits", 429⟩)
      ∧ (includes message "User not found" = false → includes message "rate limit" = false →
          translateError (.jsError message) = ⟨message, none, 500⟩) := by
  refine ⟨by simp [translateError], by simp [translateError], ?_, ?_, ?_, ?_⟩
  · intro h1 h2
    simp [translateError, h1, h2]
  · intro h
    simp [translateError, h]
  · intro h1 h2
    simp [translateError, h1, h2]
  · intro h1 h2
    simp [translateError, h1, h2]

/-- Witness for claim C7: a plain error mentioning the rate limit maps to 429
with the authentication suggestion. -/
theorem error_translation_spec_witness :
    translateError (.jsError "API rate limit exceeded")
      = ⟨"Rate limit exceeded. Please try again later or login for higher limits."
        , some "Consider logging in with GitHub for higher rate limits", 429⟩ :=
  (error_translation_spec "API rate limit exceeded" none).2.2.2.2.1 (by decide) (by decide)

/-- The retry loop performs at most `r` invocations of the wrapped operation. -/
theorem retryGo_invocations_le {ε α : Type} (op : Nat → Except ε α) (n : Nat) :
    ∀ (r i : Nat), (retryGo op n i r).2.1 ≤ r
  | 0, _ => by simp [retryGo]
  | r + 1, i => by
    simp only [retryGo]
    cases op i with
    | ok v => simp
    | error e =>
      by_cases h : (i == n - 1) = true
      · simp [h]
      · simp only [Bool.not_eq_true] at h
        simp only [h]
        have := retryGo_invocations_le op n r (i + 1)
        simp
        omega

/-- If every attempt before `k` fails and attempt `k` succeeds, the retry
loop started at attempt `i ≤ k` returns attempt `k`'s value after `k - i + 1`
invocations, backing off `1000 * 2 ^ j` milliseconds after each failed attempt `j`. -/
theorem retryGo_first_ok {ε α : Type} (op : Nat → Except ε α) (n k : Nat) (v : α)
    (hk : k < n) (hok : op k = .ok v) (hfail : ∀ j, j < k → ∃ e, op j = .error e) :
    ∀ (r i : Nat), i + r = n → i ≤ k →
      retryGo op n i r = (.ok v, k - i + 1, (List.range' i (k - i)).map (fun j => 1000 * 2 ^ j))
  | 0, i => by omega
  | r + 1, i => by
    intro hrn hik
    by_cases hi : i = k
    · subst hi
      simp [retryGo, hok]
    · obtain ⟨e, he⟩ := hfail i (by omega)
      have hne : (i == n - 1) = false := by
        simp only [beq_eq_false_iff_ne, ne_eq]
        omega
      have hrec := retryGo_first_ok op n k v hk hok hfail r (i + 1) (by omega) (by omega)
      simp only [retryGo, he, hne, Bool.false_eq_true, if_false, hrec]
      have hki : k - i = (k - (i + 1)) + 1 := by omega
      rw [hki, List.range'_succ]
      simp

/-- If every attempt fails, the retry loop started at attempt `i` re-throws
the error of the last attempt `n - 1` after `r` invocations, backing off after
every failed attempt except the last. -/
theorem retryGo_all_fail {ε α : Type} (op : Nat → Except ε α) (n : Nat) (es : Nat → ε)
    (hfail : ∀ j, j < n → op j = .error (es j)) :
    ∀ (r i : Nat), i + r = n → 1 ≤ r →
      retryGo op n i r
        = (.err (es (n - 1)), r, (List.range' i (r - 1)).map (fun j => 1000 * 2 ^ j))
  | 0, i => by omega
  | r + 1, i => by
    intro hrn hr
    have he := hfail i (by omega)
    by_cases hrz : r = 0
    · subst hrz
      have hi : i = n - 1 := by omega
      subst hi
      simp [retryGo, he]
    · have hne : (i == n - 1) = false := by
        simp only [beq_eq_false_iff_ne, ne_eq]
        omega
      have hrec := retryGo_all_fail op n es hfail r (i + 1) (by omega) (by omega)
      simp only [retryGo, he, hne, Bool.false_eq_true, if_false, hrec]
      have hrs : r = (r - 1) + 1 := by omega
      rw [show (r + 1 - 1) = (r - 1) + 1 by omega, List.range'_succ]
      simp

/--
Claim C8: for every wrapped operation and max-retry count `n`, the retry
wrapper invokes the operation at most `n` times; it returns the value of the
first invocation that does not throw, having waited `1000 * 2 ^ attempt`
milliseconds after each failed attempt before retrying; and when all `n`
invocations throw it re-throws the last error.
-/
theorem retryApiCall_spec {ε α : Type} (op : Nat → Except ε α) (n : Nat) :
    ((retryApiCall op n).2.1 ≤ n)
      ∧ (∀ k v, k < n → op k = .ok v → (∀ j, j < k → ∃ e, op j = .error e) →
          retryApiCall op n = (.ok v, k + 1, (List.range k).map (fun j => 1000 * 2 ^ j)))
      ∧ (∀ es : Nat → ε, 1 ≤ n → (∀ j, j < n → op j = .error (es j)) →
          retryApiCall op n
            = (.err (es (n - 1)), n, (List.range (n - 1)).map (fun j => 1000 * 2 ^ j))) := by
  refine ⟨retryGo_invocations_le op n n 0, ?_, ?_⟩
  · intro k v hk hok hfail
    have h := retryGo_first_ok op n k v hk hok hfail n 0 (by omega) (by omega)
    rw [retryApiCall, h, List.range_eq_range']
    simp
  · intro es hn hfail
    have h := retryGo_all_fail op n es hfail n 0 (by omega) hn
    rw [retryApiCall, h, List.range_eq_range']

/-- Witness for claim C8: an operation that fails on attempt 0 and succeeds
on attempt 1, under 3 max retries, returns the attempt-1 value after two
invocations and one 1000 ms backoff. -/
theorem retryApiCall_spec_witness :
    retryApiCall exampleOperation 3 = (.ok 7, 2, [1000]) := by
  have h := (retryApiCall_spec exampleOperation 3).2.1 1 7 (by omega) rfl
    (by
      intro j hj
      refine ⟨"network down", ?_⟩
      have : j = 0 := by omega
      subst this
      rfl)
  simpa using h

/-- The year loop of the estimator sums exactly the per-year contribution
values (absent years and zero years both contribute nothing). -/
theorem historicalCommits_eq_sum (years : List Nat) (f : Nat → Option Int) :
    historicalCommits years f = (years.map (fun y => (f y).getD 0)).sum := by
  have hfun : (fun (acc : Int) (year : Nat) =>
      match f year with
      | some v => if v ≠ 0 then acc + v else acc
      | none => acc) = fun (acc : Int) (year : Nat) => acc + (f year).getD 0 := by
    funext acc year
    cases h : f year with
    | none => simp [h]
    | some v =>
      by_cases hv : v = 0 <;> simp [h, hv]
  rw [historicalCommits, hfun, foldl_add_eq]
  simp

/-- The scanned year list runs from the current year down to the creation year. -/
theorem yearsRange_length (currentYear createdYear : Nat) :
    (yearsRange currentYear createdYear).length = currentYear + 1 - createdYear := by
  simp [yearsRange]

/--
Claim C2: when the contribution-timeline strategy succeeds, its count is the
sum of the per-year `totalCommitContributions` over the years from the
account-creation year through the current year, plus the correction term
`1 + totalRepositoryCount + totalPullRequestCount + (openIssueCount +
closedIssueCount)`; and in the scenario of 3 repositories, a public request,
2 scanned years and a year-sum of 42, the count is `42 + (1 + 3 + totalPRs +
totalIssues)` and the method tag starts with
`contribution-timeline-public-2years+`.
-/
theorem contribution_timeline_spec (currentYear : Nat) (isAuthenticated : Bool)
    (f : Nat → Option Int) (userData : UserStatsData) (r : CommitCountResult)
    (hok : getAccurateCommitCount currentYear isAuthenticated (some f) userData = .ok r) :
    (r.count
        = ((yearsRange currentYear userData.createdAtYear).map (fun y => (f y).getD 0)).sum
          + (1 + userData.repositories.totalCount + userData.pullRequests.totalCount
              + (userData.openIssues.totalCount + userData.closedIssues.totalCount)))
      ∧ (userData.repositories.totalCount = 3 → isAuthenticated = false →
          1 ≤ currentYear → userData.createdAtYear = currentYear - 1 →
          ((yearsRange currentYear userData.createdAtYear).map
              (fun y => (f y).getD 0)).sum = 42 →
          r.count = 42 + (1 + 3 + userData.pullRequests.totalCount
              + (userData.openIssues.totalCount + userData.closedIssues.totalCount))
            ∧ ∃ rest, r.method = "contribution-timeline-public-2years+" ++ rest) := by
  have hr : r = ⟨historicalCommits (yearsRange currentYear userData.createdAtYear) f
      + estimatedInitialCommits userData
    , commitMethodTag isAuthenticated (yearsRange currentYear userData.createdAtYear).length
        (estimatedInitialCommits userData)⟩ := by
    simpa [getAccurateCommitCount] using hok.symm
  subst hr
  constructor
  · simp [historicalCommits_eq_sum, estimatedInitialCommits]
  · intro h3 hauth hcy hcr hsum
    subst hauth
    constructor
    · simp [historicalCommits_eq_sum, hsum, estimatedInitialCommits, h3]
    · have hlen : (yearsRange currentYear userData.createdAtYear).length = 2 := by
        rw [yearsRange_length]
        omega
      refine ⟨toString (estimatedInitialCommits userData) ++ "initial", ?_⟩
      show commitMethodTag false (yearsRange currentYear userData.createdAtYear).length
          (estimatedInitialCommits userData) = _
      rw [hlen, commitMethodTag]
      have hpre : "contribution-timeline-" ++ (if false then "authenticated" else "public")
          ++ "-" ++ toString (2 : Nat) ++ "years+" = "contribution-timeline-public-2years+" := by
        decide
      rw [hpre, String.append_assoc]

/-- Witness for claim C2 at a concrete input: 20 + 22 contributions over the
two scanned years, 3 repositories, 5 PRs, 3 issues, so the correction term is
12 and the count is `42 + 12 = 54` with the expected method tag. -/
theorem contribution_timeline_spec_witness :
    getAccurateCommitCount 2025 false (some exampleTimeline) exampleUser
        = .ok ⟨54, "contribution-timeline-public-2years+12initial"⟩
      ∧ (54 : Int) = 42 + (1 + 3 + exampleUser.pullRequests.totalCount
          + (exampleUser.openIssues.totalCount + exampleUser.closedIssues.totalCount))
      ∧ ∃ rest, ("contribution-timeline-public-2years+12initial" : String)
          = "contribution-timeline-public-2years+" ++ rest := by
  have h := (contribution_timeline_spec 2025 false exampleTimeline exampleUser
      ⟨54, "contribution-timeline-public-2years+12initial"⟩ rfl).2
    (by decide) rfl (by omega) (by decide) (by decide)
  exact ⟨rfl, h.1, h.2⟩

/--
Claim C1 (amended): when the contribution-timeline query returns user data,
the estimator succeeds, and its count is non-negative whenever every
per-year value and the snapshot totals are non-negative — but only then: a
negative sub-query value is truthy and is summed unsanitized, so the count
can be negative (see the counterexample); and a strategy failure does
propagate — when the timeline query returns no user data,
`getAccurateCommitCount` throws, and `getUserStats` (which calls it without
any catch) propagates the error to its caller, so an estimator failure is
fatal to the request even with a perfectly good snapshot.
-/
theorem commit_estimator_spec (currentYear : Nat) (isAuthenticated : Bool)
    (f : Nat → Option Int) (userData : UserStatsData) :
    ((∀ y v, f y = some v → 0 ≤ v) → 0 ≤ userData.repositories.totalCount →
      0 ≤ userData.pullRequests.totalCount → 0 ≤ userData.openIssues.totalCount →
      0 ≤ userData.closedIssues.totalCount →
      ∃ r, getAccurateCommitCount currentYear isAuthenticated (some f) userData = .ok r
        ∧ 0 ≤ r.count)
      ∧ (getAccurateCommitCount currentYear isAuthenticated none userData
          = .error (.jsError "No user data returned from GitHub API"))
      ∧ (∀ apiResponse d, apiResponse.data.errors = none → apiResponse.data.data = some d →
          d.user = some userData →
          getUserStats apiResponse none currentYear isAuthenticated []
            = .error (.jsError "No user data returned from GitHub API")) := by
  refine ⟨?_, rfl, ?_⟩
  · intro hf hrepos hprs hopen hclosed
    refine ⟨_, rfl, ?_⟩
    show (0 : Int) ≤ historicalCommits (yearsRange currentYear userData.createdAtYear) f
        + estimatedInitialCommits userData
    have hhist : (0 : Int)
        ≤ historicalCommits (yearsRange currentYear userData.createdAtYear) f := by
      rw [historicalCommits_eq_sum]
      apply List.sum_nonneg
      intro x hx
      obtain ⟨y, _, hxy⟩ := List.mem_map.mp hx
      cases hy : f y with
      | none => simp [hy] at hxy; omega
      | some v =>
        have := hf y v hy
        simp [hy] at hxy
        omega
    have hest : (0 : Int) ≤ estimatedInitialCommits userData := by
      rw [estimatedInitialCommits]
      omega
    omega
  · intro apiResponse d herr hdata huser
    simp [getUserStats, herr, hdata, huser, getAccurateCommitCount]

/--
Counterexample to claim C1 as stated, exhibiting both failures. First, a
request whose snapshot fetch succeeded (the snapshot carries a full user) but
whose contribution-timeline query returned no user data makes `getUserStats`
fail with the strategy's re-thrown error — a sub-strategy failure propagates
to the caller, so not only a Repository Snapshot Fetcher failure is fatal.
Second, the year loop sums a truthy negative sub-query value unsanitized:
with -100 in 2025 and 2 in 2024 the estimator succeeds with the negative
count -98 + 12 = -86, so the returned count is not always non-negative.
-/
theorem commit_estimator_counterexample :
    (getUserStats exampleOkResponse none 2025 false []
        = .error (.jsError "No user data returned from GitHub API"))
      ∧ (getAccurateCommitCount 2025 false (some exampleNegativeTimeline) exampleUser
          = .ok ⟨-86, "contribution-timeline-public-2years+12initial"⟩)
      ∧ ((-86 : Int) < 0) :=
  ⟨rfl, rfl, by decide⟩

/-- Witness for claim C1: a concrete successful timeline yields a successful,
non-negative estimate. -/
theorem commit_estimator_spec_witness :
    ∃ r, getAccurateCommitCount 2025 false (some exampleTimeline) exampleUser = .ok r
      ∧ 0 ≤ r.count := by
  refine (commit_estimator_spec 2025 false exampleTimeline exampleUser).1 ?_
    (by decide) (by decide) (by decide) (by decide)
  intro y v hv
  by_cases h1 : y = 2025
  · simp [exampleTimeline, h1] at hv
    omega
  · by_cases h2 : y = 2024
    · simp [exampleTimeline, h1, h2] at hv
      omega
    · simp [exampleTimeline, h1, h2] at hv

/--
Claim C6 (amended): the snapshot fetcher signals `USER_NOT_FOUND` when
`errors[0].type` is `NOT_FOUND` and when `data.user` is absent with no
explicit errors; for any other error with a non-empty message it throws a
`CustomApiError` carrying the message truncated by 90-character line wrapping
whose `code` is the HTTP statusText — not the `GRAPHQL_ERROR` code, which is
used only when the error entry has no message; on success it returns the
computed stats.
-/
theorem snapshot_error_classification (apiResponse : ApiResponse)
    (timelineUser : Option (Nat → Option Int)) (currentYear : Nat)
    (isAuthenticated : Bool) (excludeRepos : List String)
    (e : GraphQLErrorEntry) (rest : List GraphQLErrorEntry) :
    (apiResponse.data.errors = some (e :: rest) → e.type = some "NOT_FOUND" →
      getUserStats apiResponse timelineUser currentYear isAuthenticated excludeRepos
        = .error (.customApiError
            (if e.message == "" then "Could not fetch user." else e.message)
            "USER_NOT_FOUND"))
      ∧ (apiResponse.data.errors = some (e :: rest) → e.type ≠ some "NOT_FOUND" →
          e.message ≠ "" →
          getUserStats apiResponse timelineUser currentYear isAuthenticated excludeRepos
            = .error (.customApiError ((wrapTextInLines e.message 90 1).headD "")
                apiResponse.statusText))
      ∧ (apiResponse.data.errors = some (e :: rest) → e.type ≠ some "NOT_FOUND" →
          e.message = "" →
          getUserStats apiResponse timelineUser currentYear isAuthenticated excludeRepos
            = .error (.customApiError
                "Something went wrong while trying to retrieve the stats data using the GraphQL API."
                "GRAPHQL_ERROR"))
      ∧ (apiResponse.data.errors = none → apiResponse.data.data = none →
          getUserStats apiResponse timelineUser currentYear isAuthenticated excludeRepos
            = .error (.customApiError "User data not found" "USER_NOT_FOUND"))
      ∧ (∀ d, apiResponse.data.errors = none → apiResponse.data.data = some d →
          d.user = none →
          getUserStats apiResponse timelineUser currentYear isAuthenticated excludeRepos
            = .error (.customApiError "User data not found" "USER_NOT_FOUND"))
      ∧ (∀ d u g, apiResponse.data.errors = none → apiResponse.data.data = some d →
          d.user = some u → timelineUser = some g →
          ∃ res, getUserStats apiResponse timelineUser currentYear isAuthenticated excludeRepos
            = .ok res) := by
  refine ⟨?_, ?_, ?_, ?_, ?_, ?_⟩
  · intro herr htype
    simp [getUserStats, herr, htype]
  · intro herr htype hmsg
    simp [getUserStats, herr, beq_eq_false_iff_ne.mpr htype, beq_eq_false_iff_ne.mpr hmsg]
  · intro herr htype hmsg
    simp [getUserStats, herr, beq_eq_false_iff_ne.mpr htype, hmsg]
  · intro herr hdata
    simp [getUserStats, herr, hdata]
  · intro d herr hdata huser
    simp [getUserStats, herr, hdata, huser]
  · intro d u g herr hdata huser hg
    simp [getUserStats, herr, hdata, huser, hg, getAccurateCommitCount]

/--
Counterexample to claim C6 as stated: a GraphQL error entry that is not
NOT_FOUND and has the message `"boom"`, arriving with statusText `"OK"`,
makes the fetcher throw a `CustomApiError` whose code is `"OK"` — the
wrapped message is carried, but the signalled error is not the taxonomy's
`GRAPHQL_ERROR`.
-/
theorem snapshot_error_classification_counterexample :
    getUserStats exampleErrorResponse none 2025 false []
        = .error (.customApiError " boom" "OK")
      ∧ ("OK" : String) ≠ "GRAPHQL_ERROR"
      ∧ (wrapTextInLines "boom" 90 1).headD "" = " boom" :=
  ⟨rfl, by decide, rfl⟩

/-- Witness for claim C6: the non-NOT_FOUND branch at the concrete error
response, carrying the wrapped message and the statusText as code. -/
theorem snapshot_error_classification_witness :
    getUserStats exampleErrorResponse none 2025 false []
      = .error (.customApiError ((wrapTextInLines "boom" 90 1).headD "") "OK") :=
  (snapshot_error_classification exampleErrorResponse none 2025 false []
      ⟨"boom", some "RATE_LIMITED"⟩ []).2.1 rfl (by decide) (by decide)

/-- Aggregated size of the empty edge list. -/
theorem aggEdges_nil (langName : String) : aggEdges [] langName = 0 := by
  simp [aggEdges]

/-- Aggregated size over a cons: the head edge contributes when its language matches. -/
theorem aggEdges_cons (e : LanguageEdgeData) (es : List LanguageEdgeData) (langName : String) :
    aggEdges (e :: es) langName
      = (if e.node.name == langName then e.size else 0) + aggEdges es langName := by
  simp only [aggEdges, List.filter_cons]
  split
  · simp
  · simp

/-- Aggregated size distributes over list append. -/
theorem aggEdges_append (es₁ es₂ : List LanguageEdgeData) (langName : String) :
    aggEdges (es₁ ++ es₂) langName = aggEdges es₁ langName + aggEdges es₂ langName := by
  simp [aggEdges, List.filter_append]

/-- Every name in an updated language map was already a key or is the new edge's language. -/
theorem updateLanguageMap_names_sub :
    ∀ (m : List LanguageMapEntry) (e : LanguageEdgeData) (a : LanguageMapEntry),
      a ∈ updateLanguageMap m e →
        a.name ∈ m.map (fun x => x.name) ∨ a.name = e.node.name
  | [], e, a => by
    intro ha
    simp [updateLanguageMap] at ha
    simp [ha]
  | b :: rest, e, a => by
    intro ha
    by_cases hb : b.name = e.node.name
    · simp only [updateLanguageMap, if_pos hb, List.mem_cons] at ha
      rcases ha with ha | ha
      · left
        simp [ha]
      · left
        simp [List.mem_map]
        exact Or.inr ⟨a, ha, rfl⟩
    · simp only [updateLanguageMap, if_neg hb, List.mem_cons] at ha
      rcases ha with ha | ha
      · left
        simp [ha]
      · rcases updateLanguageMap_names_sub rest e a ha with h | h
        · left
          simp only [List.map_cons, List.mem_cons]
          exact Or.inr h
        · right
          exact h

/-- Updating never removes a key from the language map. -/
theorem updateLanguageMap_names_sup :
    ∀ (m : List LanguageMapEntry) (e : LanguageEdgeData) (n : String),
      n ∈ m.map (fun x => x.name) → n ∈ (updateLanguageMap m e).map (fun x => x.name)
  | [], _, n => by simp
  | b :: rest, e, n => by
    intro hn
    by_cases hb : b.name = e.node.name
    · simpa only [updateLanguageMap, if_pos hb, List.map_cons] using hn
    · simp only [List.map_cons, List.mem_cons] at hn
      simp only [updateLanguageMap, if_neg hb, List.map_cons, List.mem_cons]
      rcases hn with hn | hn
      · exact Or.inl hn
      · exact Or.inr (updateLanguageMap_names_sup rest e n hn)

/-- After processing an edge, its language is a key of the map. -/
theorem updateLanguageMap_names_mem :
    ∀ (m : List LanguageMapEntry) (e : LanguageEdgeData),
      e.node.name ∈ (updateLanguageMap m e).map (fun x => x.name)
  | [], e => by simp [updateLanguageMap]
  | b :: rest, e => by
    by_cases hb : b.name = e.node.name
    · simp [updateLanguageMap, if_pos hb, hb]
    · simp only [updateLanguageMap, if_neg hb, List.map_cons, List.mem_cons]
      exact Or.inr (updateLanguageMap_names_mem rest e)

/-- Updating preserves distinctness of the language map's keys. -/
theorem updateLanguageMap_names_nodup :
    ∀ (m : List LanguageMapEntry) (e : LanguageEdgeData),
      (m.map (fun x => x.name)).Nodup → ((updateLanguageMap m e).map (fun x => x.name)).Nodup
  | [], e => by simp [updateLanguageMap]
  | b :: rest, e => by
    intro hm
    simp only [List.map_cons, List.nodup_cons] at hm
    by_cases hb : b.name = e.node.name
    · simpa only [updateLanguageMap, if_pos hb, List.map_cons, List.nodup_cons] using
        ⟨hm.1, hm.2⟩
    · simp only [updateLanguageMap, if_neg hb, List.map_cons, List.nodup_cons]
      refine ⟨?_, updateLanguageMap_names_nodup rest e hm.2⟩
      intro hmem
      rw [List.mem_map] at hmem
      obtain ⟨a, ha, hname⟩ := hmem
      rcases updateLanguageMap_names_sub rest e a ha with h | h
      · exact hm.1 (hname ▸ h)
      · exact hb (hname.symm.trans h)

/-- Sizes after one update: the matching entry gains the edge's size,
provided keys are distinct and described by the size function `C`. -/
theorem updateLanguageMap_size :
    ∀ (m : List LanguageMapEntry) (e : LanguageEdgeData) (C : String → Int),
      (∀ a ∈ m, a.size = C a.name) →
      ((∀ a ∈ m, a.name ≠ e.node.name) → C e.node.name = 0) →
      (m.map (fun x => x.name)).Nodup →
      ∀ a ∈ updateLanguageMap m e,
        a.size = C a.name + (if a.name = e.node.name then e.size else 0)
  | [], e, C => by
    intro _ h0 _ a ha
    simp [updateLanguageMap] at ha
    subst ha
    simp [h0 (by simp)]
  | b :: rest, e, C => by
    intro h1 h0 hnodup a ha
    simp only [List.map_cons, List.nodup_cons] at hnodup
    by_cases hb : b.name = e.node.name
    · simp only [updateLanguageMap, if_pos hb, List.mem_cons] at ha
      rcases ha with ha | ha
      · subst ha
        show b.size + e.size = C b.name + if b.name = e.node.name then e.size else 0
        rw [if_pos hb, h1 b (by simp)]
      · have hbne : a.name ≠ e.node.name := by
          intro hcontra
          apply hnodup.1
          rw [List.mem_map]
          exact ⟨a, ha, by rw [hcontra, ← hb]⟩
        simp only [if_neg hbne, add_zero]
        exact h1 a (List.mem_cons_of_mem b ha)
    · simp only [updateLanguageMap, if_neg hb, List.mem_cons] at ha
      rcases ha with ha | ha
      · subst ha
        simp only [if_neg hb, add_zero]
        exact h1 a (by simp)
      · exact updateLanguageMap_size rest e C
          (fun x hx => h1 x (List.mem_cons_of_mem b hx))
          (fun hall => h0 (fun x hx => by
            rcases List.mem_cons.mp hx with hx | hx
            · exact hx ▸ hb
            · exact hall x hx))
          hnodup.2 a ha

/-- Folding an edge list over the language map adds exactly the aggregated
per-language sizes, provided the starting map has distinct keys described by `C`. -/
theorem foldl_updateLanguageMap_size :
    ∀ (es : List LanguageEdgeData) (m : List LanguageMapEntry) (C : String → Int),
      (∀ a ∈ m, a.size = C a.name) →
      (∀ n, ¬ n ∈ m.map (fun x => x.name) → C n = 0) →
      (m.map (fun x => x.name)).Nodup →
      ∀ a ∈ es.foldl updateLanguageMap m, a.size = C a.name + aggEdges es a.name
  | [], m, C => by
    intro h1 _ _ a ha
    simp only [List.foldl_nil] at ha
    simp [aggEdges_nil, h1 a ha]
  | e :: es, m, C => by
    intro h1 h2 h3 a ha
    simp only [List.foldl_cons] at ha
    have hrec := foldl_updateLanguageMap_size es (updateLanguageMap m e)
      (fun n => C n + (if n = e.node.name then e.size else 0))
      (updateLanguageMap_size m e C h1
        (fun hall => h2 e.node.name (by
          intro hmem
          rw [List.mem_map] at hmem
          obtain ⟨x, hx, hname⟩ := hmem
          exact hall x hx hname))
        h3)
      (fun n hn => by
        have hnm : ¬ n ∈ m.map (fun x => x.name) :=
          fun h => hn (updateLanguageMap_names_sup m e n h)
        have hne : n ≠ e.node.name :=
          fun h => hn (h ▸ updateLanguageMap_names_mem m e)
        simp [h2 n hnm, hne])
      (updateLanguageMap_names_nodup m e h3)
      a ha
    rw [aggEdges_cons]
    by_cases hcase : a.name = e.node.name
    · simp only [hcase] at hrec ⊢
      simp only [if_pos rfl, beq_self_eq_true, if_pos] at hrec ⊢
      omega
    · have hbeq : (e.node.name == a.name) = false :=
        beq_eq_false_iff_ne.mpr (fun h => hcase h.symm)
      simp only [if_neg hcase, add_zero] at hrec
      simp only [hbeq, Bool.false_eq_true, if_false, zero_add]
      omega

/-- The nested repository/edge fold equals the fold over the flattened edge list. -/
theorem buildLanguageMap_eq_flat :
    ∀ (nodes : List RepositoryData) (m : List LanguageMapEntry),
      nodes.foldl (fun m repo => repo.languagesEdges.foldl updateLanguageMap m) m
        = (flatEdges nodes).foldl updateLanguageMap m
  | [], m => by simp [flatEdges]
  | r :: rest, m => by
    simp only [List.foldl_cons, flatEdges, List.map_cons, List.flatten_cons, List.foldl_append]
    exact buildLanguageMap_eq_flat rest _

/-- Every entry of the aggregated language map carries the total byte size of
its language over the processed repositories. -/
theorem buildLanguageMap_size (nodes : List RepositoryData) :
    ∀ a ∈ buildLanguageMap nodes, a.size = aggregatedLanguageSize nodes a.name := by
  intro a ha
  rw [buildLanguageMap, buildLanguageMap_eq_flat] at ha
  have h := foldl_updateLanguageMap_size (flatEdges nodes) [] (fun _ => 0)
    (by simp) (by simp) (by simp) a ha
  simpa [aggregatedLanguageSize] using h

/-- The per-language total is the sum of the per-repository totals. -/
theorem aggregatedLanguageSize_eq_sum (nodes : List RepositoryData) (langName : String) :
    aggregatedLanguageSize nodes langName
      = (nodes.map (fun r => aggEdges r.languagesEdges langName)).sum := by
  induction nodes with
  | nil => simp [aggregatedLanguageSize, flatEdges, aggEdges]
  | cons r rest ih =>
    simp only [aggregatedLanguageSize, flatEdges, List.map_cons, List.flatten_cons,
      aggEdges_append, List.sum_cons]
    rw [← ih]
    rfl

/-- Per-language totals are invariant under permuting the repository list. -/
theorem aggregatedLanguageSize_perm (nodes₁ nodes₂ : List RepositoryData)
    (h : List.Perm nodes₁ nodes₂) (langName : String) :
    aggregatedLanguageSize nodes₁ langName = aggregatedLanguageSize nodes₂ langName := by
  rw [aggregatedLanguageSize_eq_sum, aggregatedLanguageSize_eq_sum]
  exact (h.map _).sum_eq

/--
Claim C5: the top-languages list has length at most 5; it is the image under
`"#" ++ name` of a list of language aggregates that is ordered by aggregated
byte size descending, where each aggregate's size is the total byte size of
that language over the non-excluded repositories.
-/
theorem topLanguages_spec (userData : UserStatsData) (excludeRepos : List String) :
    (getUserTopLanguages userData excludeRepos).length ≤ 5
      ∧ ∃ ranked : List LanguageMapEntry,
          getUserTopLanguages userData excludeRepos
              = ranked.map (fun lang => "#" ++ lang.name)
            ∧ ranked.Pairwise (fun a b => b.size ≤ a.size)
            ∧ ∀ lang ∈ ranked, lang.size
                = aggregatedLanguageSize
                    (filterExcludedMap userData.repositories.nodes excludeRepos)
                    lang.name := by
  constructor
  · rw [getUserTopLanguages, List.length_map, List.length_take]
    exact min_le_left _ _
  · refine ⟨((buildLanguageMap
        ((filterExcludedMap userData.repositories.nodes excludeRepos).mergeSort
          starsDescending)).mergeSort sizeDescending).take 5, rfl, ?_, ?_⟩
    · have hsorted := @List.sorted_mergeSort LanguageMapEntry sizeDescending
        (fun a b c h1 h2 => by
          simp only [sizeDescending, decide_eq_true_eq] at h1 h2 ⊢
          omega)
        (fun a b => by
          simp only [sizeDescending]
          rcases Int.le_total b.size a.size with h | h <;> simp [h])
        (buildLanguageMap
          ((filterExcludedMap userData.repositories.nodes excludeRepos).mergeSort
            starsDescending))
      have htake := hsorted.sublist (List.take_sublist 5 _)
      exact htake.imp (fun h => by
        simpa [sizeDescending, decide_eq_true_eq] using h)
    · intro lang hlang
      have h1 : lang ∈ (buildLanguageMap
          ((filterExcludedMap userData.repositories.nodes excludeRepos).mergeSort
            starsDescending)).mergeSort sizeDescending := List.mem_of_mem_take hlang
      have h2 := List.mem_mergeSort.mp h1
      have h3 := buildLanguageMap_size _ lang h2
      rw [h3]
      exact aggregatedLanguageSize_perm _ _
        (List.mergeSort_perm (filterExcludedMap userData.repositories.nodes excludeRepos)
          starsDescending) lang.name

/-- Witness for claim C5 at a concrete snapshot with an excluded repository. -/
theorem topLanguages_spec_witness :
    (getUserTopLanguages exampleUser ["beta"]).length ≤ 5
      ∧ ∃ ranked : List LanguageMapEntry,
          getUserTopLanguages exampleUser ["beta"]
              = ranked.map (fun lang => "#" ++ lang.name)
            ∧ ranked.Pairwise (fun a b => b.size ≤ a.size)
            ∧ ∀ lang ∈ ranked, lang.size
                = aggregatedLanguageSize
                    (filterExcludedMap exampleUser.repositories.nodes ["beta"]) lang.name :=
  topLanguages_spec exampleUser ["beta"]
